import Mathlib

set_option maxHeartbeats 1000000

/-!
Shallow embedding of the `configure` crate's value-resolution engine:
the environment/document lookup (`src/default/mod.rs`, `src/source.rs`),
the scalar decoders (`src/default/env_deserializer.rs`), the string-to-value
adapter (`src/value.rs`), the set-once registry (`configure/src/source.rs`),
and the struct walk of the `test-setup` configuration type.
-/

/-- Outcome of `std::env::var`: present with a (unicode) value, absent
(`VarError::NotPresent`), or set to non-unicode bytes (`VarError::NotUnicode`). -/
inductive EnvLookup where
  | present (s : String)
  | notPresent
  | notUnicode
deriving DecidableEq

/-- A `toml::Value` tree, as used by the document fallback. -/
inductive Toml where
  | str (s : String)
  | intV (n : Int)
  | boolV (b : Bool)
  | arr (xs : List Toml)
  | table (kvs : List (String × Toml))

/-- Key lookup in a toml table (`toml::Value::get` on a table node). -/
def tableGet : List (String × Toml) → String → Option Toml
  | [], _ => none
  | (k, v) :: rest, key => if k = key then some v else tableGet rest key

/-- Lookup `toml::Value::get(key)`: a table looks up the key, every other node yields `None`. -/
def Toml.get : Toml → String → Option Toml
  | .table kvs, key => tableGet kvs key
  | _, _ => none

/-- Splitting, as `str::split(c)`, on a list of characters: always at least one (possibly empty)
segment; a separator character ends the current segment and starts a new one. -/
def splitChars (c : Char) : List Char → List (List Char)
  | [] => [[]]
  | x :: xs =>
    let r := splitChars c xs
    if x = c then [] :: r else (x :: r.headI) :: r.tail

/-- Joining segments with a separator character (the encoding direction of the
spec's sequence round-trip property; the crate itself only decodes). -/
def joinChars (c : Char) : List (List Char) → List Char
  | [] => []
  | [a] => a
  | a :: b :: t => a ++ c :: joinChars c (b :: t)

/-- Conversion `impl From<String> for Value` in `src/value.rs`: a string with a comma
becomes an array of per-segment string nodes, otherwise a single string node. -/
def Value.ofString (s : String) : Toml :=
  if s.data.contains ',' then
    Toml.arr ((splitChars ',' s.data).map (fun cs => Toml.str (String.mk cs)))
  else Toml.str s

/-- UTF-8 byte length of a character (`char::len_utf8` in Rust). -/
def charLen (c : Char) : Nat :=
  if c.toNat < 128 then 1
  else if c.toNat < 2048 then 2
  else if c.toNat < 65536 then 3
  else 4

/-- Result of running the `hex` helper of `src/default/env_deserializer.rs`:
a decoded byte list, a decode failure (`None` in the source), or a Rust panic
raised by slicing `&s[init..init + 2]` at a non-character-boundary byte index. -/
inductive HexOutcome where
  | ok (bytes : List Nat)
  | fail
  | panicked
deriving DecidableEq

/-- Value of one hexadecimal digit (`char::to_digit(16)`). -/
def hexDigitVal (c : Char) : Option Nat :=
  if '0' ≤ c ∧ c ≤ '9' then some (c.toNat - 48)
  else if 'a' ≤ c ∧ c ≤ 'f' then some (c.toNat - 87)
  else if 'A' ≤ c ∧ c ≤ 'F' then some (c.toNat - 55)
  else none

/-- Parsing `u8::from_str_radix(pair, 16)` on a two-character slice: two hex digits,
or a leading plus sign followed by one hex digit (`from_str_radix` accepts a
leading `+`), everything else is an error. -/
def hexPairVal (c1 c2 : Char) : Option Nat :=
  match hexDigitVal c1, hexDigitVal c2 with
  | some a, some b => some (16 * a + b)
  | _, _ => if c1 = '+' then hexDigitVal c2 else none

/-- The pair loop of `hex`: take two characters per iteration and parse the
byte slice `&s[init..init + 2]`. When the first character is one byte wide the
slice covers the second character's first byte, so a multi-byte second
character makes the slice end inside it: a panic. When the first character is
two bytes wide the slice is exactly that character (never a hex number). When
it is three or four bytes wide the slice ends inside the first character:
a panic. A trailing lone character is a decode failure (odd length). -/
def hexPairs : List Char → HexOutcome
  | [] => .ok []
  | [_] => .fail
  | c1 :: c2 :: rest =>
    if charLen c1 = 1 then
      if charLen c2 = 1 then
        match hexPairVal c1 c2 with
        | some b =>
          match hexPairs rest with
          | .ok bs => .ok (b :: bs)
          | o => o
        | none => .fail
      else .panicked
    else if charLen c1 = 2 then .fail
    else .panicked

/-- Stripping `if s.starts_with("0x")` then `&s[2..]` else the token itself. -/
def strip0x (cs : List Char) : List Char :=
  match cs with
  | c0 :: c1 :: rest => if c0 = '0' ∧ c1 = 'x' then rest else c0 :: c1 :: rest
  | l => l

/-- The `hex` helper of `src/default/env_deserializer.rs`. -/
def hexRun (s : String) : HexOutcome := hexPairs (strip0x s.data)

/-- Amended byte grammar on single-byte tokens: pairs of hex digits (or a plus
sign followed by one hex digit) decode pairwise; odd length or any other pair
is a decode failure; the empty token is zero bytes. -/
def asciiHex : List Char → Option (List Nat)
  | [] => some []
  | [_] => none
  | c1 :: c2 :: rest =>
    match hexPairVal c1 c2 with
    | some b => (asciiHex rest).map (fun bs => b :: bs)
    | none => none

/-- Variable naming `format!("{}_{}", package, field).to_shouty_snake_case()` for the
lowercase snake_case ASCII identifiers produced by package and field names:
uppercase everything, keeping the underscore separator (models the external
`heck` crate on this input shape). -/
def shoutyVarName (package fname : String) : String :=
  String.mk ((package.data ++ '_' :: fname.data).map Char.toUpper)

/-- Digit accumulation of an unsigned decimal parse. -/
def parseDigits : List Char → Nat → Option Nat
  | [], acc => some acc
  | c :: cs, acc => if c.isDigit then parseDigits cs (10 * acc + (c.toNat - 48)) else none

/-- Unsigned `from_str` with an exclusive bound: an optional leading plus sign,
then one or more decimal digits, failing on overflow past the bound. -/
def parseUIntLt (bound : Nat) (s : String) : Option Nat :=
  let ds := match s.data with
            | '+' :: rest => rest
            | l => l
  match ds with
  | [] => none
  | _ =>
    match parseDigits ds 0 with
    | some n => if n < bound then some n else none
    | none => none

/-- Parsing `u32::from_str`. -/
def parseU32 (s : String) : Option Nat := parseUIntLt (2 ^ 32) s

/-- Parsing `u16::from_str`. -/
def parseU16 (s : String) : Option Nat := parseUIntLt (2 ^ 16) s

/-- The `test-setup` configuration struct
(u32, String, Option of a u16 vector). -/
structure Config where
  first : Nat
  second : String
  third : Option (List Nat)
deriving DecidableEq

/-- Impl `Default for Configuration` in `test-setup/lib.rs`. -/
def Config.default : Config := ⟨100, "FooBar", some []⟩

/-- The raw value chosen for a field by `MapAccessor::next_key_seed`:
either the text of an environment variable or a cloned toml node. -/
inductive RawChoice where
  | env (s : String)
  | toml (t : Toml)

/-- Decoding a u32 field: env text goes through `u32::from_str`
(`EnvDeserializer`), a toml integer must fit, anything else is a type error. -/
def decU32 : RawChoice → Except String Nat
  | .env s =>
    match parseU32 s with
    | some n => .ok n
    | none => .error ("invalid u32: " ++ s)
  | .toml (.intV n) => if 0 ≤ n ∧ n < 2 ^ 32 then .ok n.toNat else .error "u32 out of range"
  | .toml _ => .error "expected integer"

/-- Decoding a String field: env text passes through, a toml string node
passes through, anything else is a type error. -/
def decString : RawChoice → Except String String
  | .env s => .ok s
  | .toml (.str s) => .ok s
  | .toml _ => .error "expected string"

/-- Decoding the comma-split segments of an env token as u16 elements,
failing on the first bad element (serde's sequence visitor is fail-fast). -/
def decU16Parts : List (List Char) → Except String (List Nat)
  | [] => .ok []
  | p :: ps =>
    match parseU16 (String.mk p) with
    | some n => (decU16Parts ps).map (fun ns => n :: ns)
    | none => .error ("invalid u16: " ++ String.mk p)

/-- Decoding a toml array as u16 elements. -/
def decTomlU16s : List Toml → Except String (List Nat)
  | [] => .ok []
  | Toml.intV n :: rest =>
    if 0 ≤ n ∧ n < 2 ^ 16 then (decTomlU16s rest).map (fun ns => n.toNat :: ns)
    else .error "u16 out of range"
  | _ :: _ => .error "expected integer"

/-- Decoding `Option<Vec<u16>>`: an env token is always `Some` of the
comma-split decode (`deserialize_option` visits `visit_some`); a toml array is
`Some` of its element decode. -/
def decThird : RawChoice → Except String (Option (List Nat))
  | .env s => (decU16Parts (splitChars ',' s.data)).map some
  | .toml (.arr xs) => (decTomlU16s xs).map some
  | .toml _ => .error "expected array"

/-- The ordered field descriptor list of the `test-setup` struct, each with
the state update performed by `CfgVisitor::visit_map` on a decoded value. -/
def tsFields : List (String × (Config → RawChoice → Except String Config)) :=
  [("first_field", fun cfg r => (decU32 r).map (fun n => { cfg with first := n })),
   ("second_field", fun cfg r => (decString r).map (fun s => { cfg with second := s })),
   ("third_field", fun cfg r => (decThird r).map (fun v => { cfg with third := v }))]

/-- One iteration of `MapAccessor::next_key_seed` for a single field: an
environment variable named `SHOUTY(package_field)` wins outright; otherwise
the document subtree `toml[package][field]` is consulted; neither yields
`none` (the field is skipped); a non-unicode variable is a hard error. -/
def fieldStep (env : String → EnvLookup) (toml : Option Toml) (package fname : String) :
    Except String (Option RawChoice) :=
  match env (shoutyVarName package fname) with
  | .present s => .ok (some (.env s))
  | .notUnicode => .error (shoutyVarName package fname ++ " is not valid unicode")
  | .notPresent =>
    match toml.bind (fun t => (t.get package).bind (fun tb => tb.get fname)) with
    | some tv => .ok (some (.toml tv))
    | none => .ok none

/-- The struct walk: `MapAccessor` feeding `CfgVisitor::visit_map`, which
updates the caller's struct field by field. A field with no raw value is
skipped (its current value is kept); the first error aborts the walk,
returning the state mutated so far. -/
def resolveMut {σ : Type} (env : String → EnvLookup) (toml : Option Toml) (package : String) :
    List (String × (σ → RawChoice → Except String σ)) → σ → Except String Unit × σ
  | [], s => (Except.ok (), s)
  | (fname, upd) :: rest, s =>
    match fieldStep env toml package fname with
    | .error e => (.error e, s)
    | .ok none => resolveMut env toml package rest s
    | .ok (some raw) =>
      match upd s raw with
      | .error e => (.error e, s)
      | .ok s2 => resolveMut env toml package rest s2

/-- Resolution through `NullDeserializer` (`configure/src/null_deserializer.rs`):
`NullMapAccessor::next_key_seed` always answers `None`, so the visitor loop
runs zero times and the struct keeps all of its current values. -/
def nullResolve {σ : Type} (s : σ) : Except String Unit × σ := (Except.ok (), s)

/-- Generation `Configuration::generate` of `test-setup/lib.rs`: start from
`Default::default()` and run the walk, discarding the struct on error. -/
def generateCfg (env : String → EnvLookup) (toml : Option Toml) : Except String Config :=
  match resolveMut env toml "test" tsFields Config.default with
  | (Except.ok _, cfg) => .ok cfg
  | (Except.error e, _) => .error e

/-- The provided `Configure::regenerate` of `configure/src/lib.rs`:
`*self = Self::generate()?;` — the freshly generated value replaces `self`
only when generation succeeded. -/
def regenerateDefault (env : String → EnvLookup) (toml : Option Toml) (self : Config) :
    Except String Unit × Config :=
  match generateCfg env toml with
  | .ok v => (.ok (), v)
  | .error e => (.error e, self)

/-- The hand-written `Configuration::regenerate` of `test-setup/lib.rs`:
the walk mutates `self` directly through `CfgVisitor { default: self }`. -/
def testSetupRegenerate (env : String → EnvLookup) (toml : Option Toml) (self : Config) :
    Except String Unit × Config :=
  resolveMut env toml "test" tsFields self

/-- An environment with no variables set. -/
def envEmpty : String → EnvLookup := fun _ => EnvLookup.notPresent

/-- Environment of the non-atomicity scenario: a valid first field and an
unparsable third field. -/
def envPartial : String → EnvLookup := fun v =>
  if v = "TEST_FIRST_FIELD" then .present "7"
  else if v = "TEST_THIRD_FIELD" then .present "xyz"
  else .notPresent

/-- Environment of the `with_env_vars` test scenario, first field only. -/
def envTest7 : String → EnvLookup := fun v =>
  if v = "TEST_FIRST_FIELD" then .present "7" else .notPresent

/-- Environment of the `mixed` test scenario: the first field overridden. -/
def envFirst12 : String → EnvLookup := fun v =>
  if v = "TEST_FIRST_FIELD" then .present "12" else .notPresent

/-- A document also providing a value for `test.first_field`. -/
def tomlDoc : Toml := .table [("test", .table [("first_field", .intV 9)])]

/-- A source held by the new registry (`configure/src/source.rs`): a
user-supplied `ConfigSource` (in practice `DefaultSource`, carrying its
optional document) installed by `set`, or the null deserializer installed by
a lazy `get`. -/
inductive RegSource (α : Type) where
  | user (a : α)
  | nullSrc
deriving DecidableEq

/-- The registry state: the installed source (the `SOURCE` static, `none`
before initialization) and the `is_overriden` atomic flag. -/
structure RegState (α : Type) where
  src : Option (RegSource α)
  overriden : Bool
deriving DecidableEq

/-- An operation on the registry. -/
inductive RegOp (α : Type) where
  | setOp (a : α)
  | getOp

/-- One registry call. `set` runs its `call_once` body (set the flag, install
the source) only when nothing is installed; `get` returns the installed
source, installing the null deserializer first when nothing is installed. -/
def regStep {α : Type} (st : RegState α) : RegOp α → RegState α × Option (RegSource α)
  | .setOp a =>
    match st.src with
    | some _ => (st, none)
    | none => (⟨some (RegSource.user a), true⟩, none)
  | .getOp =>
    match st.src with
    | some s => (st, some s)
    | none => (⟨some RegSource.nullSrc, st.overriden⟩, some RegSource.nullSrc)

/-- Running a sequence of registry calls, collecting what each `get` returned. -/
def regRun {α : Type} : RegState α → List (RegOp α) → RegState α × List (RegSource α)
  | st, [] => (st, [])
  | st, op :: ops =>
    let s1 := regStep st op
    let rest := regRun s1.1 ops
    match s1.2 with
    | some s => (rest.1, s :: rest.2)
    | none => rest

/-- Accessor `ActiveConfiguration::is_overriden`. -/
def regIsOverriden {α : Type} (st : RegState α) : Bool := st.overriden

/-- Accessor `ActiveConfiguration::is_default`. -/
def regIsDefault {α : Type} (st : RegState α) : Bool := !regIsOverriden st

/-- Resolving a struct through whichever source the registry handed out:
a user-installed `DefaultSource` runs the env/document walk, the lazily
installed null deserializer supplies no fields at all. -/
def resolveThrough {σ : Type} (src : RegSource (Option Toml)) (env : String → EnvLookup)
    (package : String) (fields : List (String × (σ → RawChoice → Except String σ)))
    (init : σ) : Except String Unit × σ :=
  match src with
  | .user toml => resolveMut env toml package fields init
  | .nullSrc => nullResolve init

/-- State of the old default source (`src/source.rs`): a loaded document,
a stored startup error inside `Mutex<Option<Error>>`, or no manifest. -/
inductive SrcState where
  | tomlSt (t : Toml)
  | errSt (e : Option String)
  | noManifest

/-- Method `DefaultSource::find` of `src/source.rs`: the environment variable wins
immediately; a non-unicode variable is an error; otherwise the document is
consulted — a stored startup error is taken out of the mutex and returned
(leaving `None` behind), an already-consumed error slot and a missing
manifest both answer absence. -/
def srcFind (st : SrcState) (env : String → EnvLookup) (envVar package key : String) :
    Except String (Option Toml) × SrcState :=
  match env envVar with
  | .present s => (.ok (some (Value.ofString s)), st)
  | .notUnicode => (.error (envVar ++ " is not valid unicode"), st)
  | .notPresent =>
    match st with
    | .tomlSt t => (.ok ((t.get package).bind (fun tb => tb.get key)), .tomlSt t)
    | .errSt (some e) => (.error e, .errSt none)
    | .errSt none => (.ok none, .errSt none)
    | .noManifest => (.ok none, .noManifest)

/-- Running a sequence of `find` calls (env-var name, package, key),
threading the source state and collecting each result. -/
def runFinds : SrcState → (String → EnvLookup) → List (String × String × String) →
    List (Except String (Option Toml)) × SrcState
  | st, _, [] => ([], st)
  | st, env, q :: qs =>
    let r := srcFind st env q.1 q.2.1 q.2.2
    let rest := runFinds r.2 env qs
    (r.1 :: rest.1, rest.2)

/-! ## Helper lemmas about the comma splitter -/

theorem splitChars_ne_nil (c : Char) (s : List Char) : splitChars c s ≠ [] := by
  cases s with
  | nil => simp [splitChars]
  | cons x xs =>
    simp only [splitChars]
    split <;> simp

theorem splitChars_eq_cons (c : Char) (s : List Char) :
    splitChars c s = (splitChars c s).headI :: (splitChars c s).tail := by
  rcases h : splitChars c s with _ | ⟨g, gs⟩
  · exact absurd h (splitChars_ne_nil c s)
  · simp

theorem splitChars_sep (c : Char) (s : List Char) :
    splitChars c (c :: s) = [] :: splitChars c s := by
  simp [splitChars]

theorem splitChars_cons_ne (c x : Char) (s : List Char) (h : x ≠ c) :
    splitChars c (x :: s) = (x :: (splitChars c s).headI) :: (splitChars c s).tail := by
  simp [splitChars, h]

theorem splitChars_append_free (c : Char) (a s : List Char) (h : ∀ y ∈ a, y ≠ c) :
    splitChars c (a ++ s) = (a ++ (splitChars c s).headI) :: (splitChars c s).tail := by
  induction a with
  | nil => simpa using splitChars_eq_cons c s
  | cons x a ih =>
    have hx : x ≠ c := h x (by simp)
    have ha : ∀ y ∈ a, y ≠ c := fun y hy => h y (by simp [hy])
    rw [List.cons_append, splitChars_cons_ne c x _ hx, ih ha]
    simp

/-- Claim C8 (amended): for every nonempty list of segments containing no
comma, joining with a comma and decoding back through the sequence splitter
(`EnvDeserializer::deserialize_seq` splits the token on a comma) yields the
original list. -/
theorem seqRoundTrip (l : List (List Char)) (hne : l ≠ [])
    (hfree : ∀ a ∈ l, ∀ y ∈ a, y ≠ ',') :
    splitChars ',' (joinChars ',' l) = l := by
  induction l with
  | nil => exact absurd rfl hne
  | cons a t ih =>
    cases t with
    | nil =>
      have h := splitChars_append_free ',' a [] (fun y hy => hfree a (by simp) y hy)
      simpa [joinChars, splitChars] using h
    | cons b t2 =>
      have hfa : ∀ y ∈ a, y ≠ ',' := hfree a (by simp)
      have ih2 : splitChars ',' (joinChars ',' (b :: t2)) = b :: t2 :=
        ih (by simp) (fun x hx y hy => hfree x (by simp [hx]) y hy)
      rw [joinChars, splitChars_append_free ',' a _ hfa, splitChars_sep, ih2]
      simp

/-- Witness for C8's amended theorem at a concrete nonempty comma-free list. -/
theorem seqRoundTrip_witness :
    splitChars ',' (joinChars ',' [['a'], ['b', 'c']]) = [['a'], ['b', 'c']] :=
  seqRoundTrip [['a'], ['b', 'c']] (by decide) (by decide)

/-- Counterexample for claim C8 as stated: the empty list (whose elements
vacuously contain no commas) joins to the empty token, which the splitter
decodes to a one-element sequence holding the empty segment — length 1, not
the original empty list of length 0. -/
theorem emptySeqRoundTripFails :
    splitChars ',' (joinChars ',' ([] : List (List Char))) = [[]] ∧
      (splitChars ',' (joinChars ',' ([] : List (List Char)))).length = 1 :=
  ⟨rfl, rfl⟩

/-! ## The hex decoder on single-byte tokens -/

theorem strip0x_subset (l : List Char) (c : Char) (hc : c ∈ strip0x l) : c ∈ l := by
  rcases l with _ | ⟨c0, _ | ⟨c1, rest⟩⟩
  · exact hc
  · exact hc
  · simp only [strip0x] at hc
    split at hc
    · simp [hc]
    · exact hc

theorem hexPairs_ascii : ∀ l : List Char, (∀ c ∈ l, charLen c = 1) →
    hexPairs l = (match asciiHex l with
                  | some bs => HexOutcome.ok bs
                  | none => HexOutcome.fail)
  | [], _ => by simp [hexPairs, asciiHex]
  | [c], _ => by simp [hexPairs, asciiHex]
  | c1 :: c2 :: rest, h => by
    have h1 : charLen c1 = 1 := h c1 (by simp)
    have h2 : charLen c2 = 1 := h c2 (by simp)
    have hr : ∀ c ∈ rest, charLen c = 1 := fun c hc => h c (by simp [hc])
    have ih := hexPairs_ascii rest hr
    simp only [hexPairs, asciiHex, h1, h2, if_true]
    cases hv : hexPairVal c1 c2 with
    | none => simp
    | some b =>
      rw [ih]
      cases asciiHex rest <;> simp

/-- Claim C6 (amended): on tokens made of single-byte characters, after
stripping an optional leading 0x the token decodes pairwise — a pair being two
hex digits, or a plus sign followed by one hex digit; odd length or any other
pair is a decode failure, and the empty token is zero bytes — the grammar
`asciiHex` captures, which the code's `hex` helper follows exactly. -/
theorem hexAsciiGrammar (s : String) (h : ∀ c ∈ s.data, charLen c = 1) :
    hexRun s = (match asciiHex (strip0x s.data) with
                | some bs => HexOutcome.ok bs
                | none => HexOutcome.fail) :=
  hexPairs_ascii (strip0x s.data) (fun c hc => h c (strip0x_subset s.data c hc))

/-- Witness for C6's amended theorem on the doc example token. -/
theorem hexAsciiGrammar_witness :
    hexRun "0xdeadbeef" = HexOutcome.ok [222, 173, 190, 239] :=
  (hexAsciiGrammar "0xdeadbeef" (by decide)).trans (by decide)

/-- Counterexample for claim C6 as stated: the non-hex pair "+f" decodes
successfully to one byte instead of failing (`from_str_radix` accepts a
leading plus sign), and the even-length non-hex token "aé" makes the helper
panic instead of producing a decode error. -/
theorem hexClaimCounterexample :
    hexRun "+f" = HexOutcome.ok [15] ∧ hexRun "aé" = HexOutcome.panicked := by
  constructor <;> decide

/-- Claim C9: evaluation of the code at the failing input. The token "€0"
(a three-byte character followed by a digit) drives the helper's byte slice
`&s[0..2]` inside the first character: a panic, which is a distinct outcome
from every byte vector and from the decode failure the claim allows. -/
theorem hexBoundaryPanics : hexRun "€0" = HexOutcome.panicked := by decide

/-! ## The field walk -/

/-- Claim C1: when the field's environment variable is present with value v,
`MapAccessor::next_key_seed` chooses the environment text for the field
whatever the loaded document contains, and `DefaultSource::find` answers the
text raw value whatever the source state holds — the document is never
consulted. -/
theorem envOverridesDocument (env : String → EnvLookup) (toml : Option Toml)
    (pkg f v : String) (h : env (shoutyVarName pkg f) = EnvLookup.present v) :
    fieldStep env toml pkg f = Except.ok (some (RawChoice.env v)) ∧
      ∀ st : SrcState,
        (srcFind st env (shoutyVarName pkg f) pkg f).1 =
          Except.ok (some (Value.ofString v)) := by
  constructor
  · simp [fieldStep, h]
  · intro st
    simp [srcFind, h]

/-- Witness for C1 on the `mixed` test scenario: TEST_FIRST_FIELD=12 in the
environment while the document supplies test.first_field=9; the environment
text wins at both layers. -/
theorem envOverridesDocument_witness :
    fieldStep envFirst12 (some tomlDoc) "test" "first_field" =
        Except.ok (some (RawChoice.env "12")) ∧
      (srcFind (SrcState.tomlSt tomlDoc) envFirst12
          (shoutyVarName "test" "first_field") "test" "first_field").1 =
        Except.ok (some (Value.ofString "12")) := by
  have h := envOverridesDocument envFirst12 (some tomlDoc) "test" "first_field" "12"
    (by decide)
  exact ⟨h.1, h.2 (SrcState.tomlSt tomlDoc)⟩

theorem resolveMut_absent {σ : Type} (env : String → EnvLookup) (pkg : String) :
    ∀ (fields : List (String × (σ → RawChoice → Except String σ))) (init : σ),
      (∀ p ∈ fields, env (shoutyVarName pkg p.1) = EnvLookup.notPresent) →
      resolveMut env none pkg fields init = (Except.ok (), init) := by
  intro fields
  induction fields with
  | nil => intro init _; rfl
  | cons p ps ih =>
    intro init h
    obtain ⟨fname, upd⟩ := p
    have h1 : env (shoutyVarName pkg fname) = EnvLookup.notPresent :=
      h (fname, upd) (by simp)
    have h2 : ∀ q ∈ ps, env (shoutyVarName pkg q.1) = EnvLookup.notPresent :=
      fun q hq => h q (by simp [hq])
    simp only [resolveMut, fieldStep, h1, Option.none_bind]
    exact ih init h2

/-- Claim C2: with no relevant environment variable set and no document, the
walk answers absence for every field, so the struct built from
`Default::default()` comes back unchanged and successfully; the null
deserializer likewise supplies nothing and keeps every default. In particular
`generate()` returns exactly the default value. -/
theorem generateKeepsDefaults {σ : Type} (env : String → EnvLookup) (pkg : String)
    (fields : List (String × (σ → RawChoice → Except String σ))) (init : σ)
    (henv : ∀ p ∈ fields, env (shoutyVarName pkg p.1) = EnvLookup.notPresent) :
    resolveMut env none pkg fields init = (Except.ok (), init) ∧
      nullResolve init = (Except.ok (), init) :=
  ⟨resolveMut_absent env pkg fields init henv, rfl⟩

/-- Witness for C2 on the `defaults_only` test scenario: the empty
environment and no manifest leave the test-setup struct at its defaults. -/
theorem generateKeepsDefaults_witness :
    resolveMut envEmpty none "test" tsFields Config.default =
      (Except.ok (), Config.default) :=
  (generateKeepsDefaults envEmpty "test" tsFields Config.default (by decide)).1

/-! ## The deferred document-load error -/

theorem runFinds_errNone (env : String → EnvLookup) :
    ∀ qs : List (String × String × String), (∀ t ∈ qs, env t.1 = EnvLookup.notPresent) →
      runFinds (SrcState.errSt none) env qs =
        (qs.map (fun _ => Except.ok none), SrcState.errSt none) := by
  intro qs
  induction qs with
  | nil => intro _; rfl
  | cons q qs ih =>
    intro h
    have h1 : env q.1 = EnvLookup.notPresent := h q (by simp)
    have h2 : ∀ t ∈ qs, env t.1 = EnvLookup.notPresent := fun t ht => h t (by simp [ht])
    simp only [runFinds, srcFind, h1, ih h2, List.map]

/-- Claim C5: with the startup document error stored and no environment
override for any queried field, the first `find` takes the error out of the
mutex and returns it; every later `find` answers a clean absence, and the
error slot stays empty — the error is surfaced exactly once. -/
theorem documentErrorSurfacedOnce (env : String → EnvLookup) (e : String)
    (q : String × String × String) (qs : List (String × String × String))
    (h : ∀ t ∈ q :: qs, env t.1 = EnvLookup.notPresent) :
    (runFinds (SrcState.errSt (some e)) env (q :: qs)).1 =
        Except.error e :: qs.map (fun _ => Except.ok none) ∧
      (runFinds (SrcState.errSt (some e)) env (q :: qs)).2 = SrcState.errSt none := by
  have h1 : env q.1 = EnvLookup.notPresent := h q (by simp)
  have h2 : ∀ t ∈ qs, env t.1 = EnvLookup.notPresent := fun t ht => h t (by simp [ht])
  constructor <;>
    simp only [runFinds, srcFind, h1, runFinds_errNone env qs h2]

/-- Witness for C5: three lookups against a failed document load with an
empty environment — the stored parse error once, then clean absences. -/
theorem documentErrorSurfacedOnce_witness :
    (runFinds (SrcState.errSt (some "manifest parse error")) envEmpty
        [("A", "p", "x"), ("B", "p", "y"), ("C", "p", "z")]).1 =
      [Except.error "manifest parse error", Except.ok none, Except.ok none] :=
  (documentErrorSurfacedOnce envEmpty "manifest parse error" ("A", "p", "x")
    [("B", "p", "y"), ("C", "p", "z")] (by decide)).1

/-! ## The set-once registry -/

theorem regRun_stable {α : Type} (s : RegSource α) :
    ∀ (ops : List (RegOp α)) (st : RegState α), st.src = some s →
      (regRun st ops).1.src = some s ∧
        (regRun st ops).1.overriden = st.overriden ∧
        ∀ g ∈ (regRun st ops).2, g = s := by
  intro ops
  induction ops with
  | nil => intro st h; exact ⟨h, rfl, by simp [regRun]⟩
  | cons op ops ih =>
    intro st h
    cases op with
    | setOp a =>
      have hstep : regStep st (RegOp.setOp a) = (st, none) := by
        simp [regStep, h]
      simp only [regRun, hstep]
      exact ih st h
    | getOp =>
      have hstep : regStep st RegOp.getOp = (st, some s) := by
        simp [regStep, h]
      simp only [regRun, hstep]
      obtain ⟨h1, h2, h3⟩ := ih st h
      refine ⟨h1, h2, ?_⟩
      intro g hg
      rcases List.mem_cons.mp hg with hg | hg
      · exact hg
      · exact h3 g hg

/-- Claim C4: once some call has initialized the registry (its source slot
holds `s`), every later sequence of calls leaves `s` installed, every `get`
in it returns `s`, and in particular every later `set` has no effect; and any
first call on the uninitialized registry — a `set` or a `get` — does install
a source. -/
theorem registryFirstWins {α : Type} (st : RegState α) (s : RegSource α)
    (ops : List (RegOp α)) (h : st.src = some s) :
    (regRun st ops).1.src = some s ∧
      (∀ g ∈ (regRun st ops).2, g = s) ∧
      ∀ op : RegOp α, ((regStep (RegState.mk none false) op).1.src).isSome = true := by
  obtain ⟨h1, _, h3⟩ := regRun_stable s ops st h
  refine ⟨h1, h3, ?_⟩
  intro op
  cases op <;> simp [regStep]

/-- Witness for C4: a registry already holding a user source survives two
more set calls and answers both gets with the same installed source. -/
theorem registryFirstWins_witness :
    (regRun (RegState.mk (some (RegSource.user 5)) true)
        [RegOp.setOp 9, RegOp.getOp, RegOp.setOp 3, RegOp.getOp]).1.src =
      some (RegSource.user 5) :=
  (registryFirstWins (RegState.mk (some (RegSource.user 5)) true) (RegSource.user 5)
    [RegOp.setOp 9, RegOp.getOp, RegOp.setOp 3, RegOp.getOp] rfl).1

/-- Claim C10: after the first call initializes the fresh registry,
`is_overriden` answers true exactly when that first call was an explicit
`set`, and `is_default` the opposite — and the answer never changes again,
whatever calls (including further sets) follow. -/
theorem overridenIffSet {α : Type} (op : RegOp α) (ops : List (RegOp α)) :
    regIsOverriden (regRun (regStep (RegState.mk none false) op).1 ops).1 =
        (match op with | RegOp.setOp _ => true | RegOp.getOp => false) ∧
      regIsDefault (regRun (regStep (RegState.mk none false) op).1 ops).1 =
        (match op with | RegOp.setOp _ => false | RegOp.getOp => true) := by
  cases op with
  | setOp a =>
    have h := regRun_stable (RegSource.user a) ops
      (RegState.mk (some (RegSource.user a)) true) rfl
    have hstep : (regStep (RegState.mk (α := α) none false) (RegOp.setOp a)).1 =
        RegState.mk (some (RegSource.user a)) true := by
      simp [regStep]
    rw [hstep]
    simp [regIsOverriden, regIsDefault, h.2.1]
  | getOp =>
    have h := regRun_stable (RegSource.nullSrc (α := α)) ops
      (RegState.mk (some RegSource.nullSrc) false) rfl
    have hstep : (regStep (RegState.mk (α := α) none false) RegOp.getOp).1 =
        RegState.mk (some RegSource.nullSrc) false := by
      simp [regStep]
    rw [hstep]
    simp [regIsOverriden, regIsDefault, h.2.1]

/-- Claim C3: evaluation of the code at the failing input. On the
uninitialized registry, `get` installs and returns the null deserializer —
not the environment-and-document source — so the subsequent resolution with
TEST_FIRST_FIELD=7 set keeps every default (first_field stays 100), while the
default source the spec and the repository's own tests expect would have
resolved first_field to 7. -/
theorem lazyGetInstallsNull :
    (regStep (RegState.mk (α := Option Toml) none false) RegOp.getOp).2 =
        some RegSource.nullSrc ∧
      resolveThrough RegSource.nullSrc envTest7 "test" tsFields Config.default =
        (Except.ok (), Config.default) ∧
      (resolveThrough (RegSource.user none) envTest7 "test" tsFields
          Config.default).2.first = 7 ∧
      Config.default.first = 100 :=
  ⟨rfl, rfl, rfl, rfl⟩

/-! ## Atomicity of regenerate -/

/-- Claim C7 (amended): the `regenerate` the `Configure` trait provides —
`*self = Self::generate()?;` — is atomic: either the walk over all fields,
run on a fresh default-initialized struct, succeeds and that fully resolved
struct replaces `self` whole, or the walk fails and `self` is exactly the
value it held before the call, however far the walk's scratch struct got.
(The hand-written regenerate of `test-setup` is the part the counterexample
removes from the claim.) -/
theorem regenerateDefaultAtomic (env : String → EnvLookup) (toml : Option Toml)
    (self : Config) :
    (∃ v, resolveMut env toml "test" tsFields Config.default = (Except.ok (), v) ∧
        regenerateDefault env toml self = (Except.ok (), v)) ∨
      ∃ e s, resolveMut env toml "test" tsFields Config.default = (Except.error e, s) ∧
        regenerateDefault env toml self = (Except.error e, self) := by
  rcases hres : resolveMut env toml "test" tsFields Config.default with ⟨r, cfg⟩
  cases r with
  | ok u =>
    cases u
    left
    refine ⟨cfg, rfl, ?_⟩
    unfold regenerateDefault generateCfg
    rw [hres]
  | error e =>
    right
    refine ⟨e, cfg, rfl, ?_⟩
    unfold regenerateDefault generateCfg
    rw [hres]

/-- Counterexample for claim C7 as stated: the hand-written
`Configuration::regenerate` of `test-setup/lib.rs` mutates self in place
through the visitor, so when TEST_FIRST_FIELD=7 decodes and then
TEST_THIRD_FIELD=xyz fails, the call returns an error with first_field
already changed from its pre-existing 100 to 7 — a partial update. -/
theorem testSetupRegenerateNotAtomic :
    (testSetupRegenerate envPartial none Config.default).1 =
        Except.error "invalid u16: xyz" ∧
      (testSetupRegenerate envPartial none Config.default).2 =
        Config.mk 7 "FooBar" (some []) ∧
      Config.default = Config.mk 100 "FooBar" (some []) :=
  ⟨rfl, rfl, rfl⟩
